import Mathlib

/-!
# urlshort: redirect handlers

A shallow embedding of `handler.go` (package `urlshort`): `MapHandler`, which
serves permanent redirects from a path table and delegates everything else to
a fallback handler, and `YAMLHandler`, which builds that table from a decoded
YAML document.

The parts of `net/http`, `net/url` and `gopkg.in/yaml.v2` that the two
functions call are modelled next to them; each such definition says which
library behaviour it stands for. The map that `MapHandler` receives is a
reference in Go: the function literal is modelled on a memory that holds the
contents of the map, so that a fallback sharing the map can be expressed.
-/

namespace Urlshort

/-! ## Go maps -/

/-- A Go `map[string]β`, kept as an association list that is read by first
match. -/
abbrev GoMap (β : Type) := List (String × β)

namespace GoMap

variable {β : Type}

/-- The comma-ok read `v, ok := m[k]`: `some v` when `k` is a key of `m`,
`none` otherwise. -/
def get? (m : GoMap β) (k : String) : Option β :=
  match m with
  | [] => none
  | (k', v) :: rest => if k' = k then some v else get? rest k

/-- The assignment `m[k] = v`: any earlier binding of `k` is replaced. -/
def set (m : GoMap β) (k : String) (v : β) : GoMap β :=
  (k, v) :: m.filter (fun e => !decide (e.1 = k))

/-- The keys of the map. -/
def keys (m : GoMap β) : List String := m.map Prod.fst

end GoMap

/-! ## Requests and response writers (`net/url`, `net/http`) -/

/-- The escaping modes of `net/url` that rendering a URL uses. -/
inductive url.encoding where
  | encodePath
  | encodeHost
  | encodeUserPassword
  | encodeFragment
  deriving DecidableEq, Repr

namespace url

/-- The UTF-8 bytes of a character. -/
def utf8 (c : Char) : List Nat :=
  let v := c.toNat
  if v < 128 then [v]
  else if v < 2048 then [192 + v / 64, 128 + v % 64]
  else if v < 65536 then [224 + v / 4096, 128 + v / 64 % 64, 128 + v % 64]
  else [240 + v / 262144, 128 + v / 4096 % 64, 128 + v / 64 % 64, 128 + v % 64]

/-- The bytes of a Go string; Go strings are taken to hold UTF-8 text. -/
def bytes (s : String) : List Nat := s.data.flatMap utf8

/-- Whether the byte `c` is one of the characters of `set`. -/
def oneOf (c : Nat) (set : String) : Bool := set.data.any (fun x => x.toNat = c)

/-- The function `shouldEscape`: whether the byte `c` is written as `%XX` in the
given mode. Letters and digits never are; a host keeps its sub-delimiters,
colon, brackets, angle brackets and quotes (39 and 34 are the two quote
characters); the marks `-_.~` never are; of the reserved characters a path
escapes only the question mark (63), user and password escape `@/?:`, a
fragment none and a host the rest; a fragment also keeps `!()*`; every other
byte is escaped. -/
def shouldEscape (c : Nat) (mode : encoding) : Bool :=
  if (97 ≤ c ∧ c ≤ 122) ∨ (65 ≤ c ∧ c ≤ 90) ∨ (48 ≤ c ∧ c ≤ 57) then false
  else if mode = .encodeHost ∧ (oneOf c "!$&()*+,;=:[]<>" ∨ c = 39 ∨ c = 34) then false
  else if oneOf c "-_.~" then false
  else if oneOf c "$&+,/:;=?@" then
    match mode with
    | .encodePath => c = 63
    | .encodeUserPassword => c = 64 ∨ c = 47 ∨ c = 63 ∨ c = 58
    | .encodeFragment => false
    | .encodeHost => true
  else if mode = .encodeFragment ∧ oneOf c "!()*" then false
  else true

/-- The upper-case hexadecimal digit of `n`. -/
def hexDigit (n : Nat) : Char := "0123456789ABCDEF".data.getD n '0'

/-- One byte as `escape` writes it. -/
def escapeByte (mode : encoding) (c : Nat) : List Char :=
  if shouldEscape c mode then ['%', hexDigit (c / 16), hexDigit (c % 16)] else [Char.ofNat c]

/-- The function `escape` in the modes above: every byte that `shouldEscape`
selects is replaced by `%XX`. -/
def escape (s : String) (mode : encoding) : String :=
  String.mk ((bytes s).flatMap (escapeByte mode))

/-- The function `ishex`. -/
def ishex (c : Nat) : Bool :=
  (48 ≤ c ∧ c ≤ 57) ∨ (97 ≤ c ∧ c ≤ 102) ∨ (65 ≤ c ∧ c ≤ 70)

/-- The function `unhex`. -/
def unhex (c : Nat) : Nat :=
  if 48 ≤ c ∧ c ≤ 57 then c - 48
  else if 97 ≤ c ∧ c ≤ 102 then c - 97 + 10
  else if 65 ≤ c ∧ c ≤ 70 then c - 65 + 10
  else 0

/-- The function `unescape` in the modes `encodePath` and `encodeFragment`, on
bytes: every `%XX` is replaced by the byte it names, and a percent sign (37)
that is not followed by two hexadecimal digits is an error. -/
def unescape (s : List Nat) : Option (List Nat) :=
  match s with
  | [] => some []
  | 37 :: a :: b :: rest =>
    if ishex a ∧ ishex b then (unescape rest).map (fun t => (16 * unhex a + unhex b) :: t)
    else none
  | [37] => none
  | [37, _] => none
  | c :: rest => (unescape rest).map (fun t => c :: t)

/-- The function `validEncoded`: the sub-delimiters, colon, at sign, brackets
and percent sign are accepted, any other byte only when the mode leaves it
unescaped. -/
def validEncoded (s : String) (mode : encoding) : Bool :=
  (bytes s).all (fun c =>
    oneOf c "!$&()*+,;=:@[]%" || decide (c = 39) || !shouldEscape c mode)

/-- The type `url.Userinfo`. -/
structure Userinfo where
  username : String
  password : String := ""
  passwordSet : Bool := false
  deriving DecidableEq, Repr

/-- The method `(*Userinfo).String`. -/
def Userinfo.String (u : Userinfo) : String :=
  if u.passwordSet then
    escape u.username .encodeUserPassword ++ ":" ++ escape u.password .encodeUserPassword
  else escape u.username .encodeUserPassword

/-- The part of a path before its first slash (`strings.Cut(path, "/")`). -/
def firstSegment (path : String) : List Char := path.data.takeWhile (fun c => c ≠ '/')

/-- A path that consists of ASCII bytes which path escaping leaves as they are:
letters, digits and the characters `-_.~$&+,/:;=@`. -/
def plain (p : String) : Bool :=
  p.data.all (fun c => decide (c.toNat < 128) && !shouldEscape c.toNat .encodePath)

/-- The prefix that `String` puts before a path that would otherwise start the
result with a segment containing a colon. -/
def dotPrefix (path : String) : String :=
  if ':' ∈ firstSegment path then "./" else ""

end url

/-- The type `url.URL`, with the field names of `net/url`. `User` is `none` for
a nil pointer. -/
structure URL where
  Scheme : String := ""
  Opaque : String := ""
  User : Option url.Userinfo := none
  Host : String := ""
  Path : String := ""
  RawPath : String := ""
  OmitHost : Bool := false
  ForceQuery : Bool := false
  RawQuery : String := ""
  Fragment : String := ""
  RawFragment : String := ""
  deriving DecidableEq, Repr

/-- The method `(*URL).EscapedPath`: `RawPath` when it is a valid encoding of
`Path`, the asterisk unescaped, and otherwise the escaped `Path`. -/
def URL.EscapedPath (u : URL) : String :=
  if u.RawPath ≠ "" ∧ url.validEncoded u.RawPath .encodePath = true ∧
      url.unescape (url.bytes u.RawPath) = some (url.bytes u.Path) then u.RawPath
  else if u.Path = "*" then "*"
  else url.escape u.Path .encodePath

/-- The method `(*URL).EscapedFragment`. -/
def URL.EscapedFragment (u : URL) : String :=
  if u.RawFragment ≠ "" ∧ url.validEncoded u.RawFragment .encodeFragment = true ∧
      url.unescape (url.bytes u.RawFragment) = some (url.bytes u.Fragment) then u.RawFragment
  else url.escape u.Fragment .encodeFragment

/-- The authority part that `String` writes after the scheme: two slashes when
there is a host, a path or a user, then the user with an at sign, then the
escaped host; nothing when there is neither scheme, host nor user, or when
`OmitHost` is set on an empty authority. -/
def URL.authority (u : URL) : String :=
  if u.Scheme ≠ "" ∨ u.Host ≠ "" ∨ u.User.isSome = true then
    if u.OmitHost = true ∧ u.Host = "" ∧ u.User.isSome = false then ""
    else
      (if u.Host ≠ "" ∨ u.Path ≠ "" ∨ u.User.isSome = true then "//" else "") ++
      (match u.User with
        | some ui => ui.String ++ "@"
        | none => "") ++
      (if u.Host ≠ "" then url.escape u.Host .encodeHost else "")
  else ""

/-- The method `(*URL).String` (called at handler.go:18): the scheme with a
colon; then either the opaque part, or the authority followed by the escaped
path, with a slash put before a path that lacks one when there is a host, and
with `./` put before the path when nothing has been written yet and its first
segment contains a colon; then a question mark and the query when the query is
non-empty or forced; then a hash sign and the escaped fragment when there is a
fragment. -/
def URL.String (u : URL) : String :=
  let scheme := if u.Scheme ≠ "" then u.Scheme ++ ":" else ""
  let hier :=
    if u.Opaque ≠ "" then scheme ++ u.Opaque
    else
      let path := u.EscapedPath
      let buf1 := scheme ++ u.authority
      let buf2 :=
        if path ≠ "" ∧ path.data.head? ≠ some '/' ∧ u.Host ≠ "" then buf1 ++ "/" else buf1
      let buf3 := if buf2 = "" then buf2 ++ url.dotPrefix path else buf2
      buf3 ++ path
  let query := if u.ForceQuery = true ∨ u.RawQuery ≠ "" then hier ++ "?" ++ u.RawQuery else hier
  if u.Fragment ≠ "" then query ++ "#" ++ u.EscapedFragment else query

/-- The part of `http.Request` that handlers of this package read. -/
structure Request where
  Method : String
  URL : URL
  deriving DecidableEq, Repr

/-- An `http.Header`: header names mapped to their list of values. -/
abbrev Header := GoMap (List String)

/-- The method `http.Header.Set`: the values of `key` are replaced by the single
value `value`. The two names this package passes, `Content-Type` and
`Location`, are already in canonical MIME form, so the canonicalisation that
the library applies to `key` is the identity on them. -/
def Header.Set (h : Header) (key value : String) : Header :=
  GoMap.set h key [value]

/-- The state of an `http.ResponseWriter` as a handler can change it: the header
map, the status code once the header has been written (`none` before), and
the body written so far. -/
structure ResponseWriter where
  header : Header
  status : Option Nat
  body : String
  deriving DecidableEq, Repr

namespace ResponseWriter

/-- A writer as the server hands it to a handler: nothing set, nothing
written. -/
def fresh : ResponseWriter := { header := [], status := none, body := "" }

/-- The statement `w.Header().Set(key, value)`. -/
def HeaderSet (w : ResponseWriter) (key value : String) : ResponseWriter :=
  { w with header := w.header.Set key value }

/-- The method `WriteHeader`: the first call fixes the status code, a later call
is ignored. -/
def WriteHeader (w : ResponseWriter) (code : Nat) : ResponseWriter :=
  match w.status with
  | none => { w with status := some code }
  | some _ => w

/-- The method `Write`: writes the header with status 200 if it has not been
written yet, then appends to the body. -/
def Write (w : ResponseWriter) (data : String) : ResponseWriter :=
  let w1 := w.WriteHeader 200
  { w1 with body := w1.body ++ data }

end ResponseWriter

/-- The constant `http.StatusMovedPermanently`. -/
def StatusMovedPermanently : Nat := 301

/-- The constant `http.StatusNotFound`. -/
def StatusNotFound : Nat := 404

/-- An `http.Handler`: `ServeHTTP(w, r)` as a transformer of the response writer
and of the state `σ` that the handler owns outside the writer (counters, logs,
anything else it can reach). -/
abbrev Handler (σ : Type) := ResponseWriter → Request → σ → ResponseWriter × σ

/-! ## handler.go -/

variable {σ : Type}

/-- A handler that holds no reference to the map, seen as a handler on the
memory that contains the map next to the handler's own state: it acts on its
own state and leaves the map as it is. -/
def Handler.unshared (h : Handler σ) : Handler (GoMap String × σ) :=
  fun w r mem => ((h w r mem.2).1, (mem.1, (h w r mem.2).2))

/-- The function literal inside `MapHandler` (handler.go:17-26). Go captures
the map `pathsToUrls` by reference, so the literal runs on a memory whose first
component is the current contents of that map and whose second component is
everything else; the fallback is a handler on the same memory and may read
and write the map as well. -/
def MapHandler.func1 (fallback : Handler (GoMap String × σ)) : Handler (GoMap String × σ) :=
  fun w r mem =>
    let pathsToUrls := mem.1
    let path := r.URL.String
    match pathsToUrls.get? path with
    | some url =>
      let w1 := w.HeaderSet "Content-Type" "text/html"
      let w2 := w1.HeaderSet "Location" url
      let w3 := w2.WriteHeader StatusMovedPermanently
      (w3, mem)
    | none => fallback w r mem

/-- The function `MapHandler` (handler.go:15-28) for a map that only the
returned handler refers to, as for the map that `YAMLHandler` builds: the
handler that redirects the paths found in `pathsToUrls` and calls `fallback`
for the others. -/
def MapHandler (pathsToUrls : GoMap String) (fallback : Handler σ) : Handler σ :=
  fun w r s =>
    let out := MapHandler.func1 fallback.unshared w r (pathsToUrls, s)
    (out.1, out.2.2)

/-- The record type `YAMLPathURL` (handler.go:46-49). -/
structure YAMLPathURL where
  Path : String
  URL : String
  deriving DecidableEq, Repr

/-- The loop of `YAMLHandler` (handler.go:59-62): starting from an empty map,
every decoded record is assigned into the map in document order. -/
def YAMLHandler.pathToURLs (pathURLs : List YAMLPathURL) : GoMap String :=
  pathURLs.foldl (fun m pu => m.set pu.Path pu.URL) []

/-- The function `YAMLHandler` (handler.go:51-65). The decoder `yaml.Unmarshal`
is the parameter `Unmarshal`: applied to the document it gives the value left
in `pathURLs` and the error it returns (`none` for `nil`). The result is the
pair of return values, `none` standing for `nil` in both places. -/
def YAMLHandler {Doc Err : Type} (Unmarshal : Doc → List YAMLPathURL × Option Err)
    (yml : Doc) (fallback : Handler σ) : Option (Handler σ) × Option Err :=
  let res := Unmarshal yml
  let pathURLs := res.1
  match res.2 with
  | some err => (none, some err)
  | none =>
    let pathToURLs := YAMLHandler.pathToURLs pathURLs
    (some (MapHandler pathToURLs fallback), none)

/-- A fallback that answers 404 with the standard not-found body and counts its
invocations in its own state. -/
def notFound : Handler Nat :=
  fun w _ n => ((w.WriteHeader StatusNotFound).Write "404 page not found\n", n + 1)

/-- A fallback that holds a reference to the map: it answers 404 like `notFound`
and records the requested key in the map with a fixed target. -/
def learning : Handler (GoMap String × Nat) :=
  fun w r mem =>
    ((w.WriteHeader StatusNotFound).Write "404 page not found\n",
      (mem.1.set r.URL.String "https://learned.example", mem.2 + 1))

/-- The table of the concrete scenario. -/
def demoTable : GoMap String :=
  [("/urlshort", "https://github.com/gophercises/urlshort"),
   ("/urlshort-final", "https://github.com/gophercises/urlshort/tree/solution")]

/-- A GET request for the given path and query. -/
def getRequest (path query : String) : Request :=
  { Method := "GET", URL := { Path := path, RawQuery := query } }

/-- The URL of the last record with path `p`, in document order. -/
def lastURL (pathURLs : List YAMLPathURL) (p : String) : Option String :=
  match pathURLs with
  | [] => none
  | pu :: rest =>
    match lastURL rest p with
    | some u => some u
    | none => if pu.Path = p then some pu.URL else none

/-! ## The decoder (`gopkg.in/yaml.v2`)

`yaml.Unmarshal` is modelled on the node tree that the YAML parser produces for
the first document of the input, for the one target type this package decodes
into, `[]YAMLPathURL`. Anchors, aliases, merge keys and explicit tags are not
part of the model, and the messages of type errors are abbreviated (no line
number, tag or value excerpt). -/

namespace yaml

/-- A node of a parsed document. A scalar carries its text and whether it was
written plain (unquoted). -/
inductive Node where
  | scalar (value : String) (plain : Bool)
  | sequence (children : List Node)
  | mapping (children : List (Node × Node))

/-- The input of `Unmarshal` after parsing: bytes that the parser rejects (with
the parser's message), an input without any node, or the root node of the
first document. -/
inductive Document where
  | invalid (msg : String)
  | empty
  | root (n : Node)

/-- The errors of `Unmarshal`: the parser's error, or a `TypeError` listing
the values that could not be decoded into their target. -/
inductive Error where
  | yamlError (msg : String)
  | TypeError (errors : List String)
  deriving DecidableEq, Repr

/-- A plain scalar that resolves to the null value. -/
def isNull (value : String) (plain : Bool) : Bool :=
  plain && decide (value ∈ ["", "~", "null", "Null", "NULL"])

/-- Decoding of a node into a Go string that currently holds `out`: the new
value and the type errors. A null scalar gives the zero value, any other scalar
its text; a sequence or mapping is a type error and leaves `out` as it is. -/
def decodeString (n : Node) (out : String) : String × List String :=
  match n with
  | .scalar value plain => if isNull value plain then ("", []) else (value, [])
  | .sequence _ => (out, ["cannot unmarshal !!seq into string"])
  | .mapping _ => (out, ["cannot unmarshal !!map into string"])

/-- Decoding of the key/value pairs of a mapping into a `YAMLPathURL` that
currently holds `out`; `name` is the decoder's key variable. A key that does
not decode into a string is a type error and its pair is skipped; the keys
`path` and `url` select the field their value is decoded into; a pair with
any other key is ignored. A field that no pair names keeps its value. -/
def mappingStruct (children : List (Node × Node)) (out : YAMLPathURL) (name : String) :
    YAMLPathURL × List String :=
  match children with
  | [] => (out, [])
  | (k, v) :: rest =>
    let key := decodeString k name
    if key.2 ≠ [] then
      let r := mappingStruct rest out name
      (r.1, key.2 ++ r.2)
    else if key.1 = "path" then
      let field := decodeString v out.Path
      let r := mappingStruct rest { out with Path := field.1 } key.1
      (r.1, field.2 ++ r.2)
    else if key.1 = "url" then
      let field := decodeString v out.URL
      let r := mappingStruct rest { out with URL := field.1 } key.1
      (r.1, field.2 ++ r.2)
    else
      mappingStruct rest out key.1

/-- Decoding of one element of the sequence into a fresh `YAMLPathURL`: the
record to append, if the element is kept, and the type errors. A mapping is
decoded field by field and always kept; a null scalar gives the zero record;
any other scalar and a sequence are type errors and the element is dropped. -/
def decodeEntry (n : Node) : Option YAMLPathURL × List String :=
  match n with
  | .scalar value plain =>
    if isNull value plain then (some { Path := "", URL := "" }, [])
    else (none, ["cannot unmarshal scalar into urlshort.YAMLPathURL"])
  | .sequence _ => (none, ["cannot unmarshal !!seq into urlshort.YAMLPathURL"])
  | .mapping children =>
    let r := mappingStruct children { Path := "", URL := "" } ""
    (some r.1, r.2)

/-- Decoding of the elements of a sequence into a `[]YAMLPathURL`: the kept
records in order, and all type errors. -/
def decodeSequence (children : List Node) : List YAMLPathURL × List String :=
  match children with
  | [] => ([], [])
  | n :: rest =>
    let e := decodeEntry n
    let r := decodeSequence rest
    (e.1.toList ++ r.1, e.2 ++ r.2)

/-- The call `yaml.Unmarshal(yml, &pathURLs)` on a nil `pathURLs`: the value
left in `pathURLs` and the returned error. A parser error is returned as it
is; an input without nodes and a null root leave the slice empty; a sequence
root is decoded element by element, and the collected type errors, if any, are
returned as one `TypeError` next to the records that did decode; a mapping or
any other scalar at the root is a type error. -/
def Unmarshal (yml : Document) : List YAMLPathURL × Option Error :=
  match yml with
  | .invalid msg => ([], some (.yamlError msg))
  | .empty => ([], none)
  | .root (.scalar value plain) =>
    if isNull value plain then ([], none)
    else ([], some (.TypeError ["cannot unmarshal scalar into []urlshort.YAMLPathURL"]))
  | .root (.mapping _) =>
    ([], some (.TypeError ["cannot unmarshal !!map into []urlshort.YAMLPathURL"]))
  | .root (.sequence children) =>
    let r := decodeSequence children
    (r.1, if r.2 = [] then none else some (.TypeError r.2))

/-- Whether a node is a scalar. -/
def isScalar (n : Node) : Bool :=
  match n with
  | .scalar _ _ => true
  | .sequence _ => false
  | .mapping _ => false

/-- A plain scalar node. -/
def str (value : String) : Node := .scalar value true

/-- A record node with the given key/value pairs, all plain scalars. -/
def record (fields : List (String × String)) : Node :=
  .mapping (fields.map (fun f => (str f.1, str f.2)))

end yaml

/-! ## Map lemmas -/

theorem GoMap.get?_set {β : Type} (m : GoMap β) (k k' : String) (v : β) :
    (m.set k v).get? k' = if k = k' then some v else m.get? k' := by
  unfold GoMap.set
  by_cases h : k = k'
  · simp [GoMap.get?, h]
  · simp only [GoMap.get?, h, if_false]
    induction m with
    | nil => simp [GoMap.get?]
    | cons e rest ih =>
      obtain ⟨a, b⟩ := e
      by_cases ha : a = k
      · subst ha
        simp [List.filter, GoMap.get?, h, ih]
      · simp [List.filter, GoMap.get?, ha, ih]

theorem GoMap.get?_isSome_iff {β : Type} (m : GoMap β) (k : String) :
    (∃ v, m.get? k = some v) ↔ k ∈ m.keys := by
  induction m with
  | nil => simp [GoMap.get?, GoMap.keys]
  | cons e rest ih =>
    obtain ⟨a, b⟩ := e
    by_cases ha : a = k
    · simp [GoMap.get?, GoMap.keys, ha]
    · have hk : ¬ k = a := fun h => ha h.symm
      simp only [GoMap.get?, ha, if_false, ih, GoMap.keys, List.map_cons, List.mem_cons, hk,
        false_or]

theorem ne_append_query (p q : String) : p ≠ p ++ "?" ++ q := by
  intro h
  have hl := congrArg String.length h
  simp only [String.length_append] at hl
  have h1 : ("?" : String).length = 1 := rfl
  rw [h1] at hl
  omega

/-! ## The table built by the loop -/

theorem foldl_set_get? (es : List YAMLPathURL) (m : GoMap String) (p : String) :
    (es.foldl (fun m pu => m.set pu.Path pu.URL) m).get? p
      = match lastURL es p with
        | some u => some u
        | none => m.get? p := by
  induction es generalizing m with
  | nil => simp [lastURL]
  | cons e rest ih =>
    rw [List.foldl_cons, ih, lastURL]
    cases hrest : lastURL rest p with
    | some u => rfl
    | none =>
      by_cases he : e.Path = p <;> simp [GoMap.get?_set, he]

theorem pathToURLs_get? (es : List YAMLPathURL) (p : String) :
    (YAMLHandler.pathToURLs es).get? p = lastURL es p := by
  unfold YAMLHandler.pathToURLs
  rw [foldl_set_get?]
  cases lastURL es p <;> simp [GoMap.get?]

theorem lastURL_eq_none (es : List YAMLPathURL) (p : String)
    (h : ∀ e ∈ es, e.Path ≠ p) : lastURL es p = none := by
  induction es with
  | nil => rfl
  | cons e rest ih =>
    have h1 : e.Path ≠ p := h e (List.mem_cons_self _ _)
    have h2 : lastURL rest p = none := ih (fun x hx => h x (List.mem_cons_of_mem _ hx))
    simp [lastURL, h1, h2]

theorem lastURL_append_cons (pre post : List YAMLPathURL) (e : YAMLPathURL)
    (h : ∀ x ∈ post, x.Path ≠ e.Path) : lastURL (pre ++ e :: post) e.Path = some e.URL := by
  induction pre with
  | nil => simp [lastURL, lastURL_eq_none post e.Path h]
  | cons a rest ih => simp [lastURL, ih]

theorem lastURL_isSome_iff (es : List YAMLPathURL) (p : String) :
    (∃ u, lastURL es p = some u) ↔ p ∈ es.map YAMLPathURL.Path := by
  induction es with
  | nil => simp [lastURL]
  | cons e rest ih =>
    cases hrest : lastURL rest p with
    | some u =>
      have hmem : p ∈ rest.map YAMLPathURL.Path := ih.mp ⟨u, hrest⟩
      have hmem' : ∃ a ∈ rest, a.Path = p := by simpa using hmem
      simp [lastURL, hrest, hmem']
    | none =>
      have hmem : ¬ p ∈ rest.map YAMLPathURL.Path := fun hm => by
        obtain ⟨u, hu⟩ := ih.mpr hm
        rw [hrest] at hu
        exact Option.noConfusion hu
      have hmem' : ¬ ∃ a ∈ rest, a.Path = p := by simpa using hmem
      by_cases he : e.Path = p
      · simp [lastURL, hrest, he]
      · have he' : ¬ p = e.Path := fun h => he h.symm
        simp [lastURL, hrest, he, he', hmem']

theorem YAMLHandler_of_decoded {Doc Err : Type} (U : Doc → List YAMLPathURL × Option Err)
    (yml : Doc) (F : Handler σ) (es : List YAMLPathURL) (hdec : U yml = (es, none)) :
    YAMLHandler U yml F = (some (MapHandler (YAMLHandler.pathToURLs es) F), none) := by
  simp [YAMLHandler, hdec]

/-- A request whose key the table maps to `url` is answered by the redirect. -/
theorem MapHandler_of_hit (T : GoMap String) (F : Handler σ) (w : ResponseWriter)
    (r : Request) (s : σ) (url : String) (hkey : T.get? r.URL.String = some url) :
    MapHandler T F w r s
      = (((w.HeaderSet "Content-Type" "text/html").HeaderSet "Location" url).WriteHeader 301,
          s) := by
  simp [MapHandler, MapHandler.func1, Handler.unshared, hkey, StatusMovedPermanently]

/-! ## Decoder lemmas -/

theorem yaml.decodeString_collection (n : yaml.Node) (out : String)
    (h : yaml.isScalar n = false) : (yaml.decodeString n out).2 ≠ [] := by
  cases n <;> simp_all [yaml.decodeString, yaml.isScalar]

theorem yaml.decodeString_str (value out : String) (h : yaml.isNull value true = false) :
    yaml.decodeString (yaml.str value) out = (value, []) := by
  simp [yaml.str, yaml.decodeString, h]

theorem yaml.mappingStruct_field_error (kpre kpost : List (yaml.Node × yaml.Node))
    (field : String) (val : yaml.Node) (out : YAMLPathURL) (name : String)
    (hfield : field = "path" ∨ field = "url") (hval : yaml.isScalar val = false) :
    (yaml.mappingStruct (kpre ++ (yaml.str field, val) :: kpost) out name).2 ≠ [] := by
  induction kpre generalizing out name with
  | nil =>
    have h1 := yaml.decodeString_collection val out.Path hval
    have h2 := yaml.decodeString_collection val out.URL hval
    have hp : yaml.decodeString (yaml.str "path") name = ("path", []) := by
      simp [yaml.str, yaml.decodeString, yaml.isNull]
    have hu : yaml.decodeString (yaml.str "url") name = ("url", []) := by
      simp [yaml.str, yaml.decodeString, yaml.isNull]
    rcases hfield with hf | hf <;> subst hf
    · simp [yaml.mappingStruct, hp, h1]
    · simp [yaml.mappingStruct, hu, h2]
  | cons kv rest ih =>
    obtain ⟨k, v⟩ := kv
    simp only [List.cons_append, yaml.mappingStruct]
    split_ifs <;> simp [ih]

theorem yaml.decodeSequence_errors (pre post : List yaml.Node) (n : yaml.Node) :
    (yaml.decodeSequence (pre ++ n :: post)).2
      = (yaml.decodeSequence pre).2 ++ ((yaml.decodeEntry n).2 ++ (yaml.decodeSequence post).2) := by
  induction pre with
  | nil => simp [yaml.decodeSequence]
  | cons a rest ih => simp [yaml.decodeSequence, ih]

theorem yaml.Unmarshal_bad_entry (pre post : List yaml.Node) (n : yaml.Node)
    (h : (yaml.decodeEntry n).2 ≠ []) :
    ∃ e, (yaml.Unmarshal (.root (.sequence (pre ++ n :: post)))).2 = some e := by
  have herr : (yaml.decodeSequence (pre ++ n :: post)).2 ≠ [] := by
    rw [yaml.decodeSequence_errors]
    simp [h]
  exact ⟨.TypeError (yaml.decodeSequence (pre ++ n :: post)).2, by simp [yaml.Unmarshal, herr]⟩

theorem YAMLHandler_of_error {Doc Err : Type} (U : Doc → List YAMLPathURL × Option Err)
    (yml : Doc) (F : Handler σ) (h : ∃ e, (U yml).2 = some e) :
    ∃ e, YAMLHandler U yml F = (none, some e) := by
  obtain ⟨e, he⟩ := h
  exact ⟨e, by simp [YAMLHandler, he]⟩

/-! ## Rendering of URLs -/

theorem url.escape_plain (p : String) (h : url.plain p = true) :
    url.escape p .encodePath = p := by
  have key : ∀ cs : List Char,
      (cs.all (fun c => decide (c.toNat < 128) && !url.shouldEscape c.toNat .encodePath)) = true →
      (cs.flatMap url.utf8).flatMap (url.escapeByte .encodePath) = cs := by
    intro cs
    induction cs with
    | nil => intro _; rfl
    | cons c rest ih =>
      intro hall
      simp only [List.all_cons, Bool.and_eq_true, decide_eq_true_eq, Bool.not_eq_true'] at hall
      obtain ⟨⟨hlt, hesc⟩, hrest⟩ := hall
      have hu : url.utf8 c = [c.toNat] := by simp [url.utf8, hlt]
      have hb : url.escapeByte .encodePath c.toNat = [c] := by
        simp [url.escapeByte, hesc]
      simp [List.flatMap_cons, hu, hb, ih hrest]
  apply String.ext
  exact key p.data h

theorem url.dotPrefix_slash (p : String) (h : p.data.head? = some '/') :
    url.dotPrefix p = "" := by
  obtain ⟨cs⟩ := p
  cases cs with
  | nil => simp at h
  | cons c rest =>
    simp only [List.head?_cons, Option.some.injEq] at h
    subst h
    simp [url.dotPrefix, url.firstSegment]

theorem escapedPath_plain (u : URL) (p : String) (hpath : u.Path = p)
    (hraw : u.RawPath = "") (hplain : url.plain p = true) : u.EscapedPath = p := by
  unfold URL.EscapedPath
  rw [hpath]
  simp only [hraw, ne_eq, not_true_eq_false, false_and, if_false]
  split_ifs with hstar
  · exact hstar.symm
  · exact url.escape_plain p hplain

theorem authority_bare (u : URL) (hscheme : u.Scheme = "") (huser : u.User = none)
    (hhost : u.Host = "") : u.authority = "" := by
  simp [URL.authority, hscheme, huser, hhost]

theorem render_bare_query (u : URL) (q : String)
    (hscheme : u.Scheme = "") (hopq : u.Opaque = "") (huser : u.User = none)
    (hhost : u.Host = "") (hfragment : u.Fragment = "") (hquery : u.RawQuery = q)
    (hq : q ≠ "") :
    u.String = url.dotPrefix u.EscapedPath ++ u.EscapedPath ++ "?" ++ q := by
  have hauth := authority_bare u hscheme huser hhost
  simp [URL.String, hscheme, hopq, hhost, hfragment, hquery, hq, hauth]

theorem render_plain (p : String) (hplain : url.plain p = true)
    (hslash : p.data.head? = some '/') : ({ Path := p } : URL).String = p := by
  have hesc : ({ Path := p } : URL).EscapedPath = p :=
    escapedPath_plain { Path := p } p rfl rfl hplain
  have hauth : ({ Path := p } : URL).authority = "" :=
    authority_bare { Path := p } rfl rfl rfl
  have hdot := url.dotPrefix_slash p hslash
  simp [URL.String, hesc, hauth, hdot]

/-! ## MapHandler -/

/-- C1: when the lookup key of the request (its URL rendered as a string) is a
key of the table, the handler, started on a writer whose header has not been
written, answers with status 301, sets `Location` to exactly the mapped URL
and sets `Content-Type` to `text/html`. -/
theorem MapHandler_redirects (T : GoMap String) (F : Handler σ) (w : ResponseWriter)
    (r : Request) (s : σ) (url : String)
    (hkey : T.get? r.URL.String = some url) (hw : w.status = none) :
    (MapHandler T F w r s).1.status = some 301 ∧
    (MapHandler T F w r s).1.header.get? "Location" = some [url] ∧
    (MapHandler T F w r s).1.header.get? "Content-Type" = some ["text/html"] := by
  simp [MapHandler, MapHandler.func1, Handler.unshared, hkey, ResponseWriter.WriteHeader,
    ResponseWriter.HeaderSet, Header.Set, GoMap.get?_set, hw, StatusMovedPermanently]

/-- C1, on the demo table: the request for `/urlshort` is answered with 301 and
the github URL. -/
theorem MapHandler_redirects_witness :
    demoTable.get? (getRequest "/urlshort" "").URL.String
        = some "https://github.com/gophercises/urlshort" ∧
    ResponseWriter.fresh.status = none ∧
    (MapHandler demoTable notFound ResponseWriter.fresh (getRequest "/urlshort" "") 0).1.status
        = some 301 ∧
    (MapHandler demoTable notFound ResponseWriter.fresh
        (getRequest "/urlshort" "") 0).1.header.get? "Location"
        = some ["https://github.com/gophercises/urlshort"] ∧
    (MapHandler demoTable notFound ResponseWriter.fresh
        (getRequest "/urlshort" "") 0).1.header.get? "Content-Type"
        = some ["text/html"] :=
  ⟨by decide, rfl,
    MapHandler_redirects demoTable notFound ResponseWriter.fresh (getRequest "/urlshort" "") 0
      "https://github.com/gophercises/urlshort" (by decide) rfl⟩

/-- C2: when the lookup key of the request is not a key of the table, the
handler returns exactly what the fallback returns on the same writer, request
and state; with the empty table this is the case for every request. -/
theorem MapHandler_delegates (T : GoMap String) (F : Handler σ) (w : ResponseWriter)
    (r : Request) (s : σ) (hmiss : T.get? r.URL.String = none) :
    MapHandler T F w r s = F w r s ∧ MapHandler ([] : GoMap String) F = F := by
  refine ⟨?_, ?_⟩
  · simp [MapHandler, MapHandler.func1, Handler.unshared, hmiss]
  · funext w1 r1 s1
    simp [MapHandler, MapHandler.func1, Handler.unshared, GoMap.get?]

/-- C2, on the concrete scenario: the request for `/unknown` gets the 404 of the
fallback. -/
theorem MapHandler_delegates_witness :
    demoTable.get? (getRequest "/unknown" "").URL.String = none ∧
    (MapHandler demoTable notFound ResponseWriter.fresh (getRequest "/unknown" "") 0
        = notFound ResponseWriter.fresh (getRequest "/unknown" "") 0 ∧
      MapHandler ([] : GoMap String) notFound = notFound) ∧
    (notFound ResponseWriter.fresh (getRequest "/unknown" "") 0).1.status = some 404 :=
  ⟨by decide,
    MapHandler_delegates demoTable notFound ResponseWriter.fresh (getRequest "/unknown" "") 0
      (by decide),
    by decide⟩

/-- C10: when the lookup key is a key of the table, whatever the mapped value,
the fallback is not invoked (its state is untouched and the outcome is the same
for every fallback), the body is left as it was, every header other than
`Content-Type` and `Location` keeps its value, and on a writer whose header
has not been written the answer is 301 with `Location` set to the mapped value,
the empty string included. -/
theorem MapHandler_match_frame (T : GoMap String) (F : Handler σ) (w : ResponseWriter)
    (r : Request) (s : σ) (url : String) (hkey : T.get? r.URL.String = some url) :
    (MapHandler T F w r s).2 = s ∧
    (∀ G : Handler σ, MapHandler T G w r s = MapHandler T F w r s) ∧
    (MapHandler T F w r s).1.body = w.body ∧
    (∀ name : String, name ≠ "Content-Type" → name ≠ "Location" →
      (MapHandler T F w r s).1.header.get? name = w.header.get? name) ∧
    (w.status = none →
      (MapHandler T F w r s).1.status = some 301 ∧
      (MapHandler T F w r s).1.header.get? "Location" = some [url]) := by
  refine ⟨?_, ?_, ?_, ?_, ?_⟩
  · simp [MapHandler, MapHandler.func1, Handler.unshared, hkey]
  · intro G
    simp [MapHandler, MapHandler.func1, Handler.unshared, hkey]
  · cases hs : w.status <;>
      simp [MapHandler, MapHandler.func1, Handler.unshared, hkey, ResponseWriter.WriteHeader,
        ResponseWriter.HeaderSet, hs]
  · intro name h1 h2
    have h1' : ¬ "Content-Type" = name := fun h => h1 h.symm
    have h2' : ¬ "Location" = name := fun h => h2 h.symm
    cases hs : w.status <;>
      simp [MapHandler, MapHandler.func1, Handler.unshared, hkey, ResponseWriter.WriteHeader,
        ResponseWriter.HeaderSet, Header.Set, GoMap.get?_set, hs, h1', h2']
  · intro hw
    simp [MapHandler, MapHandler.func1, Handler.unshared, hkey, ResponseWriter.WriteHeader,
      ResponseWriter.HeaderSet, Header.Set, GoMap.get?_set, hw, StatusMovedPermanently]

/-- C10, on a table that maps `/empty` to the empty string, with a writer that
already carries a header and a body: 301 with an empty `Location`, fallback
counter still 0, body and the other header untouched. -/
theorem MapHandler_match_frame_witness :
    GoMap.get? [("/empty", "")] (getRequest "/empty" "").URL.String = some "" ∧
    (MapHandler [("/empty", "")] notFound
        { header := [("X-Trace", ["1"])], status := none, body := "seen" }
        (getRequest "/empty" "") 0).2 = 0 ∧
    (MapHandler [("/empty", "")] notFound
        { header := [("X-Trace", ["1"])], status := none, body := "seen" }
        (getRequest "/empty" "") 0).1
      = { header := [("Location", [""]), ("Content-Type", ["text/html"]), ("X-Trace", ["1"])],
          status := some 301, body := "seen" } :=
  ⟨by decide,
    (MapHandler_match_frame [("/empty", "")] notFound
      { header := [("X-Trace", ["1"])], status := none, body := "seen" }
      (getRequest "/empty" "") 0 "" (by decide)).1,
    by decide⟩

/-- C7, as stated, fails: the key is the URL as `String` renders it, which
escapes the path. For the path `/a b` and the query `x` the key is `/a%20b?x`:
the table with the key `/a b?x` leaves the request to the fallback, and the
table with the key `/a%20b?x` redirects it. For the path `a:b` the key is
`./a:b?x`, and for a URL with scheme and host it starts with them. -/
theorem MapHandler_key_not_raw_path_and_query :
    ({ Path := "/a b", RawQuery := "x" } : URL).String = "/a%20b?x" ∧
    MapHandler [("/a b?x", "https://t.example")] notFound ResponseWriter.fresh
        { Method := "GET", URL := { Path := "/a b", RawQuery := "x" } } 0
      = notFound ResponseWriter.fresh
        { Method := "GET", URL := { Path := "/a b", RawQuery := "x" } } 0 ∧
    (MapHandler [("/a%20b?x", "https://t.example")] notFound ResponseWriter.fresh
        { Method := "GET", URL := { Path := "/a b", RawQuery := "x" } } 0).1.status
      = some 301 ∧
    ({ Path := "a:b", RawQuery := "x" } : URL).String = "./a:b?x" ∧
    ({ Scheme := "http", Host := "host", Path := "/path", RawQuery := "x" } : URL).String
      = "http://host/path?x" := by
  refine ⟨by decide, by decide, by decide, by decide, by decide⟩

/-- C7, amended: for every request the lookup key is the URL as `String`
renders it, query included: the handler redirects when that string is a key of
the table and delegates to the fallback when it is not. For a URL without
scheme, opaque part, user, host and fragment and with a non-empty query `q`
that string is the escaped path, preceded by `./` when its first segment
contains a colon, followed by `?q`. When moreover the path `p` starts with a
slash, needs no escaping and has no raw form, the key is `p?q`; a table whose
only key is `p` does not match that request, and a table whose only key is
`p?q` does not match the request for `p` without a query. -/
theorem MapHandler_key_is_rendered_url (T : GoMap String) (F : Handler σ)
    (w : ResponseWriter) (s : σ) (method : String) (u : URL) :
    (∀ target, T.get? u.String = some target →
      MapHandler T F w { Method := method, URL := u } s
        = (((w.HeaderSet "Content-Type" "text/html").HeaderSet "Location" target).WriteHeader 301,
            s)) ∧
    (T.get? u.String = none →
      MapHandler T F w { Method := method, URL := u } s = F w { Method := method, URL := u } s) ∧
    (∀ q, u.Scheme = "" → u.Opaque = "" → u.User = none → u.Host = "" → u.Fragment = "" →
      u.RawQuery = q → q ≠ "" →
      u.String = url.dotPrefix u.EscapedPath ++ u.EscapedPath ++ "?" ++ q ∧
      ∀ p target, u.Path = p → u.RawPath = "" → url.plain p = true → p.data.head? = some '/' →
        u.String = p ++ "?" ++ q ∧
        MapHandler [(p, target)] F w { Method := method, URL := u } s
          = F w { Method := method, URL := u } s ∧
        MapHandler [(p ++ "?" ++ q, target)] F w { Method := method, URL := { Path := p } } s
          = F w { Method := method, URL := { Path := p } } s) := by
  refine ⟨?_, ?_, ?_⟩
  · intro target htarget
    simp [MapHandler, MapHandler.func1, Handler.unshared, htarget, StatusMovedPermanently]
  · intro hnone
    simp [MapHandler, MapHandler.func1, Handler.unshared, hnone]
  · intro q hscheme hopq huser hhost hfragment hquery hq
    have hkey : u.String = url.dotPrefix u.EscapedPath ++ u.EscapedPath ++ "?" ++ q :=
      render_bare_query u q hscheme hopq huser hhost hfragment hquery hq
    refine ⟨hkey, ?_⟩
    intro p target hpath hraw hplain hslash
    have hesc : u.EscapedPath = p := escapedPath_plain u p hpath hraw hplain
    have hdot : url.dotPrefix p = "" := url.dotPrefix_slash p hslash
    have hkey' : u.String = p ++ "?" ++ q := by
      rw [hkey, hesc, hdot, String.empty_append]
    have hne : ¬ p = p ++ "?" ++ q := ne_append_query p q
    have hne' : ¬ p ++ "?" ++ q = p := fun h => hne h.symm
    have hbare : ({ Path := p } : URL).String = p := render_plain p hplain hslash
    refine ⟨hkey', ?_, ?_⟩
    · simp [MapHandler, MapHandler.func1, Handler.unshared, hkey', GoMap.get?, hne]
    · simp [MapHandler, MapHandler.func1, Handler.unshared, hbare, GoMap.get?, hne']

/-- C7, on a concrete table: the key `/search?q=go` redirects the request with
that path and query, while the key `/search` alone leaves it to the fallback. -/
theorem MapHandler_key_is_rendered_url_witness :
    url.plain "/search" = true ∧
    (getRequest "/search" "q=go").URL.String = "/search?q=go" ∧
    (MapHandler [("/search?q=go", "https://example.com/go")] notFound ResponseWriter.fresh
        (getRequest "/search" "q=go") 0).1.status = some 301 ∧
    MapHandler [("/search", "https://example.com/")] notFound ResponseWriter.fresh
        { Method := "GET", URL := { Path := "/search", RawQuery := "q=go" } } 0
      = notFound ResponseWriter.fresh
        { Method := "GET", URL := { Path := "/search", RawQuery := "q=go" } } 0 :=
  ⟨by decide, by decide, by decide,
    (((MapHandler_key_is_rendered_url [] notFound ResponseWriter.fresh 0 "GET"
      { Path := "/search", RawQuery := "q=go" }).2.2 "q=go" rfl rfl rfl rfl rfl rfl
      (by decide)).2 "/search" "https://example.com/" rfl rfl (by decide) (by decide)).2.1⟩

/-- C9, as stated, fails: the map is captured by reference and a fallback that
holds the same reference can write it. The fallback `learning` always gives
the same answer, yet the first request for `/new` is answered 404 and leaves
a changed table, and the second, identical request is answered 301. -/
theorem MapHandler_not_idempotent_shared :
    (∀ (w : ResponseWriter) (r : Request) (m1 m2 : GoMap String × Nat),
      (learning w r m1).1 = (learning w r m2).1) ∧
    (MapHandler.func1 learning ResponseWriter.fresh (getRequest "/new" "") (demoTable, 0)).1.status
      = some 404 ∧
    (MapHandler.func1 learning ResponseWriter.fresh (getRequest "/new" "") (demoTable, 0)).2.1
      ≠ demoTable ∧
    (MapHandler.func1 learning ResponseWriter.fresh (getRequest "/new" "")
        (MapHandler.func1 learning ResponseWriter.fresh (getRequest "/new" "")
          (demoTable, 0)).2).1.status
      = some 301 := by
  refine ⟨fun _ _ _ _ => rfl, by decide, by decide, by decide⟩

/-- C9, amended: let the fallback never write the map, and let its answer
depend only on the writer, the request and the contents of the map. Then an
invocation of the handler leaves the map equal to the table `T` it started
with, and a second invocation with the same request and the same initial
writer, run on the memory that the first left behind, gives the same response
and again leaves `T`. The handler itself writes nothing but the response: on a
key of `T` the memory is left exactly as it was, for every fallback, and
otherwise the outcome is that of the fallback. -/
theorem MapHandler_idempotent (T : GoMap String) (F : Handler (GoMap String × σ))
    (w : ResponseWriter) (r : Request) (s : σ)
    (hkeep : ∀ (w1 : ResponseWriter) (r1 : Request) (m : GoMap String × σ),
      (F w1 r1 m).2.1 = m.1)
    (hanswer : ∀ (w1 : ResponseWriter) (r1 : Request) (m1 m2 : GoMap String × σ),
      m1.1 = m2.1 → (F w1 r1 m1).1 = (F w1 r1 m2).1) :
    (MapHandler.func1 F w r (T, s)).2.1 = T ∧
    (MapHandler.func1 F w r (MapHandler.func1 F w r (T, s)).2).2.1 = T ∧
    (MapHandler.func1 F w r (MapHandler.func1 F w r (T, s)).2).1
      = (MapHandler.func1 F w r (T, s)).1 ∧
    (∀ (G : Handler (GoMap String × σ)) (target : String),
      T.get? r.URL.String = some target →
      MapHandler.func1 G w r (T, s)
        = (((w.HeaderSet "Content-Type" "text/html").HeaderSet "Location" target).WriteHeader 301,
            (T, s))) ∧
    (T.get? r.URL.String = none →
      MapHandler.func1 F w r (T, s) = F w r (T, s) ∧
      MapHandler.func1 F w r (MapHandler.func1 F w r (T, s)).2
        = F w r (F w r (T, s)).2) := by
  have hhit : ∀ (G : Handler (GoMap String × σ)) (target : String),
      T.get? r.URL.String = some target →
      MapHandler.func1 G w r (T, s)
        = (((w.HeaderSet "Content-Type" "text/html").HeaderSet "Location" target).WriteHeader 301,
            (T, s)) := by
    intro G target htarget
    simp [MapHandler.func1, htarget, StatusMovedPermanently]
  cases hkey : T.get? r.URL.String with
  | some target =>
    have h1 := hhit F target hkey
    refine ⟨by rw [h1], ?_, ?_, ?_, ?_⟩
    · rw [h1, h1]
    · rw [h1, h1]
    · intro G t ht
      exact hhit G t (by rw [hkey]; exact ht)
    · intro hnone
      exact Option.noConfusion hnone
  | none =>
    have h1 : MapHandler.func1 F w r (T, s) = F w r (T, s) := by
      simp [MapHandler.func1, hkey]
    have hT : (F w r (T, s)).2.1 = T := hkeep w r (T, s)
    have hkey2 : (F w r (T, s)).2.1.get? r.URL.String = none := by rw [hT]; exact hkey
    have h2 : MapHandler.func1 F w r (F w r (T, s)).2 = F w r (F w r (T, s)).2 := by
      simp [MapHandler.func1, hkey2]
    refine ⟨by rw [h1]; exact hT, ?_, ?_, ?_, ?_⟩
    · rw [h1, h2, hkeep, hT]
    · rw [h1, h2]
      exact hanswer w r _ _ hT
    · intro G t ht
      exact Option.noConfusion ht
    · intro _
      exact ⟨h1, by rw [h1, h2]⟩

/-- C9, with the counting 404 fallback, which holds no reference to the map: the
request for `/unknown` is answered identically twice although the counter
moved from 0 to 1 to 2, and the table is the same after each call. -/
theorem MapHandler_idempotent_witness :
    (∀ (w1 : ResponseWriter) (r1 : Request) (m : GoMap String × Nat),
      (notFound.unshared w1 r1 m).2.1 = m.1) ∧
    (∀ (w1 : ResponseWriter) (r1 : Request) (m1 m2 : GoMap String × Nat),
      m1.1 = m2.1 → (notFound.unshared w1 r1 m1).1 = (notFound.unshared w1 r1 m2).1) ∧
    (MapHandler.func1 notFound.unshared ResponseWriter.fresh (getRequest "/unknown" "")
        (demoTable, 0)).2 = (demoTable, 1) ∧
    (MapHandler.func1 notFound.unshared ResponseWriter.fresh (getRequest "/unknown" "")
        (demoTable, 1)) =
      ({ header := [], status := some 404, body := "404 page not found\n" }, (demoTable, 2)) ∧
    (MapHandler.func1 notFound.unshared ResponseWriter.fresh (getRequest "/unknown" "")
        (MapHandler.func1 notFound.unshared ResponseWriter.fresh (getRequest "/unknown" "")
          (demoTable, 0)).2).1
      = (MapHandler.func1 notFound.unshared ResponseWriter.fresh (getRequest "/unknown" "")
          (demoTable, 0)).1 :=
  ⟨fun _ _ _ => rfl, fun _ _ _ _ _ => rfl, by decide, by decide,
    (MapHandler_idempotent demoTable notFound.unshared ResponseWriter.fresh
      (getRequest "/unknown" "") 0 (fun _ _ _ => rfl) (fun _ _ _ _ _ => rfl)).2.2.1⟩

/-! ## YAMLHandler -/

/-- C3: when the decoded records contain `(p, u)` and no later record has path
`p`, the table built by `YAMLHandler` maps `p` to `u` whatever earlier
records say, in particular for the two records `(p, u_old)`, `(p, u)`; and the
returned handler answers a request with key `p` by a 301 redirect to `u`. -/
theorem YAMLHandler_last_write_wins {Doc Err : Type}
    (U : Doc → List YAMLPathURL × Option Err) (yml : Doc) (F : Handler σ)
    (pre post : List YAMLPathURL) (p u : String) (w : ResponseWriter) (r : Request) (s : σ)
    (hdec : U yml = (pre ++ { Path := p, URL := u } :: post, none))
    (hlast : ∀ e ∈ post, e.Path ≠ p) (hr : r.URL.String = p) (hw : w.status = none) :
    (YAMLHandler.pathToURLs (pre ++ { Path := p, URL := u } :: post)).get? p = some u ∧
    (∀ u_old : String,
      (YAMLHandler.pathToURLs [{ Path := p, URL := u_old }, { Path := p, URL := u }]).get? p
        = some u) ∧
    ∃ h, (YAMLHandler U yml F).1 = some h ∧
      (h w r s).1.status = some 301 ∧ (h w r s).1.header.get? "Location" = some [u] := by
  have hget : (YAMLHandler.pathToURLs (pre ++ { Path := p, URL := u } :: post)).get? p
      = some u := by
    rw [pathToURLs_get?]
    exact lastURL_append_cons pre post { Path := p, URL := u } hlast
  refine ⟨hget, ?_, ?_⟩
  · intro u_old
    rw [pathToURLs_get?]
    exact lastURL_append_cons [{ Path := p, URL := u_old }] [] { Path := p, URL := u }
      (fun x hx => absurd hx (List.not_mem_nil x))
  · refine ⟨MapHandler (YAMLHandler.pathToURLs (pre ++ { Path := p, URL := u } :: post)) F,
      ?_, ?_⟩
    · rw [YAMLHandler_of_decoded U yml F _ hdec]
    · have hkey : (YAMLHandler.pathToURLs (pre ++ { Path := p, URL := u } :: post)).get?
          r.URL.String = some u := by rw [hr]; exact hget
      rw [MapHandler_of_hit _ F w r s u hkey]
      simp [ResponseWriter.WriteHeader, ResponseWriter.HeaderSet, Header.Set, GoMap.get?_set, hw]

/-- C3, on a document with the path `/a` three times around another record: the
last URL wins. -/
theorem YAMLHandler_last_write_wins_witness :
    yaml.Unmarshal (.root (.sequence [
        yaml.record [("path", "/a"), ("url", "https://old.example")],
        yaml.record [("path", "/a"), ("url", "https://new.example")],
        yaml.record [("path", "/b"), ("url", "https://b.example")]]))
      = ([{ Path := "/a", URL := "https://old.example" }] ++
          { Path := "/a", URL := "https://new.example" } ::
          [{ Path := "/b", URL := "https://b.example" }], none) ∧
    (YAMLHandler.pathToURLs ([{ Path := "/a", URL := "https://old.example" }] ++
          { Path := "/a", URL := "https://new.example" } ::
          [{ Path := "/b", URL := "https://b.example" }])).get? "/a"
      = some "https://new.example" :=
  ⟨by decide,
    (YAMLHandler_last_write_wins yaml.Unmarshal
      (.root (.sequence [
        yaml.record [("path", "/a"), ("url", "https://old.example")],
        yaml.record [("path", "/a"), ("url", "https://new.example")],
        yaml.record [("path", "/b"), ("url", "https://b.example")]]))
      notFound [{ Path := "/a", URL := "https://old.example" }]
      [{ Path := "/b", URL := "https://b.example" }] "/a" "https://new.example"
      ResponseWriter.fresh (getRequest "/a" "") 0 (by decide) (by decide) (by decide) rfl).1⟩

/-- C4: when the decoded records have pairwise distinct paths, the table built
by `YAMLHandler` maps the path of every record to the URL of that record, the
strings being stored as they are, and the returned handler is `MapHandler` on
that table. -/
theorem YAMLHandler_round_trip {Doc Err : Type}
    (U : Doc → List YAMLPathURL × Option Err) (yml : Doc) (F : Handler σ)
    (es : List YAMLPathURL) (hdec : U yml = (es, none))
    (hdistinct : (es.map YAMLPathURL.Path).Nodup) :
    (∀ e ∈ es, (YAMLHandler.pathToURLs es).get? e.Path = some e.URL) ∧
    (YAMLHandler U yml F).1 = some (MapHandler (YAMLHandler.pathToURLs es) F) := by
  refine ⟨?_, ?_⟩
  · intro e he
    obtain ⟨pre, post, hsplit⟩ := List.append_of_mem he
    subst hsplit
    rw [pathToURLs_get?]
    apply lastURL_append_cons
    intro x hx hxe
    rw [List.map_append, List.map_cons] at hdistinct
    have hnd := (List.nodup_cons.mp (List.nodup_append.mp hdistinct).2.1).1
    exact hnd (hxe ▸ List.mem_map_of_mem YAMLPathURL.Path hx)
  · rw [YAMLHandler_of_decoded U yml F es hdec]

/-- C4, on a document with an empty path and an empty url: both are stored as
they are. -/
theorem YAMLHandler_round_trip_witness :
    yaml.Unmarshal (.root (.sequence [
        yaml.record [("path", ""), ("url", "https://root.example")],
        yaml.record [("path", "/a"), ("url", "")]]))
      = ([{ Path := "", URL := "https://root.example" }, { Path := "/a", URL := "" }], none) ∧
    (([{ Path := "", URL := "https://root.example" }, { Path := "/a", URL := "" }] :
        List YAMLPathURL).map YAMLPathURL.Path).Nodup ∧
    (YAMLHandler.pathToURLs
        [{ Path := "", URL := "https://root.example" }, { Path := "/a", URL := "" }]).get? ""
      = some "https://root.example" ∧
    (YAMLHandler.pathToURLs
        [{ Path := "", URL := "https://root.example" }, { Path := "/a", URL := "" }]).get? "/a"
      = some "" :=
  ⟨by decide, by decide,
    (YAMLHandler_round_trip yaml.Unmarshal
      (.root (.sequence [
        yaml.record [("path", ""), ("url", "https://root.example")],
        yaml.record [("path", "/a"), ("url", "")]]))
      notFound [{ Path := "", URL := "https://root.example" }, { Path := "/a", URL := "" }]
      (by decide) (by decide)).1 { Path := "", URL := "https://root.example" } (by decide),
    by decide⟩

/-- C5: the error returned by `YAMLHandler` is the error of the decoder, so it
is non-nil exactly when decoding fails; when decoding fails the result is the
nil handler with that error, for every fallback and whatever records the
decoder left behind; when decoding succeeds the error is nil and the handler is
`MapHandler` on the table built from the decoded records. -/
theorem YAMLHandler_error {Doc Err : Type} (U : Doc → List YAMLPathURL × Option Err)
    (yml : Doc) (F : Handler σ) :
    (YAMLHandler U yml F).2 = (U yml).2 ∧
    ((YAMLHandler U yml F).2 ≠ none ↔ (U yml).2 ≠ none) ∧
    (∀ err, (U yml).2 = some err →
      (YAMLHandler U yml F).1 = none ∧
      ∀ G : Handler σ, YAMLHandler U yml G = (none, some err)) ∧
    ((U yml).2 = none →
      YAMLHandler U yml F = (some (MapHandler (YAMLHandler.pathToURLs (U yml).1) F), none)) := by
  cases h : (U yml).2 with
  | none => simp [YAMLHandler, h]
  | some e => simp [YAMLHandler, h]

/-- C8: after a successful decode the returned handler is `MapHandler` on the
built table with the same fallback, the keys of that table are exactly the
paths of the decoded records, and a request whose key is none of these paths
is answered by the fallback. -/
theorem YAMLHandler_refines_MapHandler {Doc Err : Type}
    (U : Doc → List YAMLPathURL × Option Err) (yml : Doc) (F : Handler σ)
    (es : List YAMLPathURL) (hdec : U yml = (es, none)) :
    (YAMLHandler U yml F).1 = some (MapHandler (YAMLHandler.pathToURLs es) F) ∧
    (∀ k : String, k ∈ (YAMLHandler.pathToURLs es).keys ↔ k ∈ es.map YAMLPathURL.Path) ∧
    (∀ (w : ResponseWriter) (r : Request) (s : σ), r.URL.String ∉ es.map YAMLPathURL.Path →
      ∃ h, (YAMLHandler U yml F).1 = some h ∧ h w r s = F w r s) := by
  have hkeys : ∀ k : String,
      k ∈ (YAMLHandler.pathToURLs es).keys ↔ k ∈ es.map YAMLPathURL.Path := by
    intro k
    rw [← GoMap.get?_isSome_iff, pathToURLs_get?, lastURL_isSome_iff]
  have hh := YAMLHandler_of_decoded U yml F es hdec
  refine ⟨by rw [hh], hkeys, ?_⟩
  intro w r s hr
  refine ⟨MapHandler (YAMLHandler.pathToURLs es) F, by rw [hh], ?_⟩
  have hnone : (YAMLHandler.pathToURLs es).get? r.URL.String = none := by
    cases hg : (YAMLHandler.pathToURLs es).get? r.URL.String with
    | none => rfl
    | some v =>
      exact absurd ((hkeys _).mp ((GoMap.get?_isSome_iff _ _).mp ⟨v, hg⟩)) hr
  simp [MapHandler, MapHandler.func1, Handler.unshared, hnone]

/-- C8, on a two-record document: the keys of the table are the two paths and
the request for `/unknown` gets the 404 of the fallback. -/
theorem YAMLHandler_refines_MapHandler_witness :
    yaml.Unmarshal (.root (.sequence [
        yaml.record [("path", "/urlshort"), ("url", "https://github.com/gophercises/urlshort")],
        yaml.record [("path", "/a"), ("url", "https://a.example")]]))
      = ([{ Path := "/urlshort", URL := "https://github.com/gophercises/urlshort" },
          { Path := "/a", URL := "https://a.example" }], none) ∧
    (YAMLHandler yaml.Unmarshal (.root (.sequence [
        yaml.record [("path", "/urlshort"), ("url", "https://github.com/gophercises/urlshort")],
        yaml.record [("path", "/a"), ("url", "https://a.example")]])) notFound).1
      = some (MapHandler (YAMLHandler.pathToURLs
          [{ Path := "/urlshort", URL := "https://github.com/gophercises/urlshort" },
           { Path := "/a", URL := "https://a.example" }]) notFound) ∧
    (MapHandler (YAMLHandler.pathToURLs
          [{ Path := "/urlshort", URL := "https://github.com/gophercises/urlshort" },
           { Path := "/a", URL := "https://a.example" }]) notFound
        ResponseWriter.fresh (getRequest "/unknown" "") 0).1.status = some 404 :=
  ⟨by decide,
    (YAMLHandler_refines_MapHandler yaml.Unmarshal
      (.root (.sequence [
        yaml.record [("path", "/urlshort"), ("url", "https://github.com/gophercises/urlshort")],
        yaml.record [("path", "/a"), ("url", "https://a.example")]]))
      notFound
      [{ Path := "/urlshort", URL := "https://github.com/gophercises/urlshort" },
       { Path := "/a", URL := "https://a.example" }] (by decide)).1,
    by decide⟩

/-- C6, as stated, fails: a record with only `path`, and a record with only
`url`, decode without error; `YAMLHandler` returns a handler and a nil error,
the absent field is the empty string, and the request for `/a` is redirected
to the empty URL. -/
theorem YAMLHandler_missing_field_accepted :
    yaml.Unmarshal (.root (.sequence [yaml.record [("path", "/a")]]))
      = ([{ Path := "/a", URL := "" }], none) ∧
    yaml.Unmarshal (.root (.sequence [yaml.record [("url", "https://a.example")]]))
      = ([{ Path := "", URL := "https://a.example" }], none) ∧
    (YAMLHandler yaml.Unmarshal (.root (.sequence [yaml.record [("path", "/a")]])) notFound).2
      = none ∧
    (YAMLHandler yaml.Unmarshal (.root (.sequence [yaml.record [("path", "/a")]])) notFound).1
      = some (MapHandler [("/a", "")] notFound) ∧
    (YAMLHandler yaml.Unmarshal
        (.root (.sequence [yaml.record [("url", "https://a.example")]])) notFound)
      = (some (MapHandler [("", "https://a.example")] notFound), none) ∧
    MapHandler [("/a", "")] notFound ResponseWriter.fresh (getRequest "/a" "") 0
      = ({ header := [("Location", [""]), ("Content-Type", ["text/html"])],
           status := some 301, body := "" }, 0) := by
  refine ⟨by decide, by decide, by decide, ?_, ?_, by decide⟩
  · rfl
  · rfl

/-- C6, amended: `YAMLHandler` returns the nil handler and the decoder's error
when the input is not well-formed YAML, when the root is a mapping or a
non-null scalar, when an element of the root sequence is a sequence or a
non-null scalar, and when the value of a `path` or `url` key is a sequence or
a mapping. A record with only `path` or only `url` is accepted: the other
field is the empty string. -/
theorem YAMLHandler_malformed (F : Handler σ) :
    (∀ msg : String,
      YAMLHandler yaml.Unmarshal (.invalid msg) F = (none, some (.yamlError msg))) ∧
    (∀ children, ∃ e, YAMLHandler yaml.Unmarshal (.root (.mapping children)) F = (none, some e)) ∧
    (∀ value plain, yaml.isNull value plain = false →
      ∃ e, YAMLHandler yaml.Unmarshal (.root (.scalar value plain)) F = (none, some e)) ∧
    (∀ pre post children, ∃ e,
      YAMLHandler yaml.Unmarshal (.root (.sequence (pre ++ .sequence children :: post))) F
        = (none, some e)) ∧
    (∀ pre post value plain, yaml.isNull value plain = false → ∃ e,
      YAMLHandler yaml.Unmarshal (.root (.sequence (pre ++ .scalar value plain :: post))) F
        = (none, some e)) ∧
    (∀ pre post kpre kpost field val, (field = "path" ∨ field = "url") →
      yaml.isScalar val = false → ∃ e,
      YAMLHandler yaml.Unmarshal
          (.root (.sequence (pre ++ .mapping (kpre ++ (yaml.str field, val) :: kpost) :: post))) F
        = (none, some e)) ∧
    (∀ p : String, yaml.isNull p true = false →
      YAMLHandler yaml.Unmarshal (.root (.sequence [yaml.record [("path", p)]])) F
        = (some (MapHandler [(p, "")] F), none)) ∧
    (∀ u : String, yaml.isNull u true = false →
      YAMLHandler yaml.Unmarshal (.root (.sequence [yaml.record [("url", u)]])) F
        = (some (MapHandler [("", u)] F), none)) := by
  refine ⟨?_, ?_, ?_, ?_, ?_, ?_, ?_, ?_⟩
  · intro msg
    simp [YAMLHandler, yaml.Unmarshal]
  · intro children
    exact YAMLHandler_of_error _ _ F ⟨_, rfl⟩
  · intro value plain hnull
    exact YAMLHandler_of_error _ _ F
      ⟨.TypeError ["cannot unmarshal scalar into []urlshort.YAMLPathURL"],
        by simp [yaml.Unmarshal, hnull]⟩
  · intro pre post children
    exact YAMLHandler_of_error _ _ F
      (yaml.Unmarshal_bad_entry pre post _ (by simp [yaml.decodeEntry]))
  · intro pre post value plain hnull
    exact YAMLHandler_of_error _ _ F
      (yaml.Unmarshal_bad_entry pre post _ (by simp [yaml.decodeEntry, hnull]))
  · intro pre post kpre kpost field val hfield hval
    have herr := yaml.mappingStruct_field_error kpre kpost field val
      { Path := "", URL := "" } "" hfield hval
    exact YAMLHandler_of_error _ _ F
      (yaml.Unmarshal_bad_entry pre post _ (by simpa [yaml.decodeEntry] using herr))
  · intro p hnull
    have hpath : ∀ out, yaml.decodeString (yaml.str "path") out = ("path", []) :=
      fun out => yaml.decodeString_str "path" out (by decide)
    have hurl : ∀ out, yaml.decodeString (yaml.str "url") out = ("url", []) :=
      fun out => yaml.decodeString_str "url" out (by decide)
    have hval : ∀ out, yaml.decodeString (yaml.str p) out = (p, []) :=
      fun out => yaml.decodeString_str p out hnull
    simp [YAMLHandler, yaml.Unmarshal, yaml.decodeSequence, yaml.decodeEntry, yaml.record,
      yaml.mappingStruct, hpath, hurl, hval, YAMLHandler.pathToURLs, GoMap.set]
  · intro u hnull
    have hpath : ∀ out, yaml.decodeString (yaml.str "path") out = ("path", []) :=
      fun out => yaml.decodeString_str "path" out (by decide)
    have hurl : ∀ out, yaml.decodeString (yaml.str "url") out = ("url", []) :=
      fun out => yaml.decodeString_str "url" out (by decide)
    have hval : ∀ out, yaml.decodeString (yaml.str u) out = (u, []) :=
      fun out => yaml.decodeString_str u out hnull
    simp [YAMLHandler, yaml.Unmarshal, yaml.decodeSequence, yaml.decodeEntry, yaml.record,
      yaml.mappingStruct, hpath, hurl, hval, YAMLHandler.pathToURLs, GoMap.set]

end Urlshort
